import Mathlib

/-!
Verification development for a local LLM HTTP service (model lifecycle
cache, chat sessions, streaming, embeddings, reranking, error mapping).
The definitions shallowly embed the server's orchestration logic; the
inference engine itself is an external collaborator and is modelled at
its interface boundary (token lists, score functions, embedding
functions, a set of on-disk artifact paths).
-/

namespace LocalLLM

/-- Model categories: `embedding`, `reranker`, `chat`. -/
inductive Category where
  | embedding
  | reranker
  | chat
deriving DecidableEq, Repr

/-- Base directory per category (the `MODEL_DIRS` object). -/
def MODEL_DIRS : Category → String
  | Category.embedding => "models/embedding"
  | Category.reranker => "models/reranker"
  | Category.chat => "models/chat"

/-- Iteration order of `Object.values(MODEL_DIRS)`: insertion order of the
object literal, i.e. embedding, reranker, chat. -/
def categoryOrder : List Category :=
  [Category.embedding, Category.reranker, Category.chat]

/-- Path join as used by the server (`path.join(dir, file)`). -/
def pathJoin (dir file : String) : String := dir ++ "/" ++ file

/-- JS `String.prototype.endsWith`, embedded as a suffix test on the
character lists. -/
def strEndsWith (s post : String) : Bool :=
  post.data.isSuffixOf s.data

/-- Appends the `.gguf` extension if not present (load path, lines 49-51). -/
def withGgufExt (name : String) : String :=
  if strEndsWith name (".gguf") then name else name ++ ".gguf"

/-- Resolution of a model name and category to the cache key
(`path.join(MODEL_DIRS[type], modelFileName)`). -/
def resolvePath (name : String) (t : Category) : String :=
  pathJoin (MODEL_DIRS t) (withGgufExt name)

/-- One cache record (`ModelContext`): opaque handle, optional category
contexts, last-use timestamp (milliseconds, as `Date.now()`). -/
structure ModelContext where
  modelHandle : Nat
  embeddingContext : Option Nat
  rankingContext : Option Nat
  lastUsed : Int
deriving DecidableEq, Repr

/-- Association-list embedding of the JS `Map` (insertion ordered,
unique keys): lookup. -/
def mapGet? {V : Type} : List (String × V) → String → Option V
  | [], _ => none
  | e :: m, k => if e.1 = k then some e.2 else mapGet? m k

/-- JS `Map.set`: replace in place if the key exists, else append. -/
def mapSet {V : Type} : List (String × V) → String → V → List (String × V)
  | [], k, v => [(k, v)]
  | e :: m, k, v => if e.1 = k then (k, v) :: m else e :: mapSet m k v

/-- JS `Map.delete` (first occurrence; keys are unique under `mapSet`). -/
def mapDelete {V : Type} : List (String × V) → String → List (String × V)
  | [], _ => []
  | e :: m, k => if e.1 = k then m else e :: mapDelete m k

/-- JS `Map.has`. -/
def mapHas {V : Type} (m : List (String × V)) (k : String) : Bool :=
  (mapGet? m k).isSome

/-- The `loadedModels` map: resolved artifact path to cache record. -/
abbrev Cache := List (String × ModelContext)

/-- Errors thrown by the engine load path: a filesystem `ENOENT` error
carrying the attempted path, or any other error carrying a message. -/
inductive JsError where
  | enoent (path : String)
  | other (msg : String)
deriving DecidableEq, Repr

/-- Engine `llama.loadModel`: the artifact must exist on disk; a missing
file throws `ENOENT` carrying the attempted path. `disk` is the set of
existing artifact paths; the returned handle is opaque. -/
def llamaLoadModel (disk : List String) (p : String) : Except JsError Nat :=
  if p ∈ disk then Except.ok (p.length) else Except.error (JsError.enoent p)

/-- The server's `loadModel` (lines 44-78): resolve the path; on a cache
hit refresh `lastUsed` and return the record; otherwise load through the
engine, build the category context, store and return the record. -/
def loadModel (disk : List String) (cache : Cache) (modelName : String)
    (t : Category) (now : Int) : Except JsError (ModelContext × Cache) :=
  let modelPath := resolvePath modelName t
  match mapGet? cache modelPath with
  | some existingModel =>
      let refreshed := { existingModel with lastUsed := now }
      Except.ok (refreshed, mapSet cache modelPath refreshed)
  | none =>
      match llamaLoadModel disk modelPath with
      | Except.error e => Except.error e
      | Except.ok h =>
          let context : ModelContext :=
            { modelHandle := h
              embeddingContext := if t = Category.embedding then some h else none
              rankingContext := if t = Category.reranker then some h else none
              lastUsed := now }
          Except.ok (context, mapSet cache modelPath context)

/-- The idle sweep `unloadUnusedModels` (lines 81-90): delete every entry
with `now - lastUsed > maxAgeMs`, keep the rest. -/
def unloadUnusedModels (cache : Cache) (now maxAgeMs : Int) : Cache :=
  cache.filter (fun e => !(decide (now - e.2.lastUsed > maxAgeMs)))

/-- The `/v1/models/unload` handler's cache manipulation (lines 346-362):
scan category directories in `categoryOrder`, testing
`path.join(dir, model + ".gguf")` — note the unconditional extension
append — and remove the first hit; report whether anything was removed. -/
def unloadModel (cache : Cache) (model : String) : Bool × Cache :=
  match categoryOrder.find?
      (fun t => mapHas cache (pathJoin (MODEL_DIRS t) (model ++ ".gguf"))) with
  | none => (false, cache)
  | some t => (true, mapDelete cache (pathJoin (MODEL_DIRS t) (model ++ ".gguf")))

theorem mapGet?_mapSet_self {V : Type} (m : List (String × V)) (k : String) (v : V) :
    mapGet? (mapSet m k v) k = some v := by
  induction m with
  | nil => simp [mapSet, mapGet?]
  | cons e m ih =>
      by_cases h : e.1 = k
      · simp [mapSet, h, mapGet?]
      · simp [mapSet, h, mapGet?, ih]

/-- C4 helper: membership in a Boolean filter. -/
theorem mem_filter_bool {α : Type} (p : α → Bool) (l : List α) (x : α) :
    x ∈ l.filter p ↔ x ∈ l ∧ p x = true := by
  simp [List.mem_filter]

/-- C4: after a sweep at time `now` with threshold `maxAgeMs`, an entry is
retained iff it was present and `now - lastUsed ≤ maxAgeMs`; entries older
than the threshold are removed. -/
theorem sweep_retained_iff (cache : Cache) (now maxAgeMs : Int)
    (e : String × ModelContext) :
    e ∈ unloadUnusedModels cache now maxAgeMs ↔
      e ∈ cache ∧ now - e.2.lastUsed ≤ maxAgeMs := by
  unfold unloadUnusedModels
  rw [mem_filter_bool]
  constructor
  · rintro ⟨hm, hp⟩
    refine ⟨hm, ?_⟩
    by_contra hgt
    push_neg at hgt
    simp [hgt] at hp
  · rintro ⟨hm, hle⟩
    refine ⟨hm, ?_⟩
    simp [not_lt.mpr hle]

/-- C9: every successful `loadModel` call (cache hit or fresh load) returns
a record whose `lastUsed` equals the current time, and stores that record
in the cache under the resolved path. -/
theorem loadModel_refreshes_lastUsed (disk : List String) (cache : Cache)
    (modelName : String) (t : Category) (now : Int) (ctx : ModelContext)
    (cache' : Cache)
    (h : loadModel disk cache modelName t now = Except.ok (ctx, cache')) :
    ctx.lastUsed = now ∧ mapGet? cache' (resolvePath modelName t) = some ctx := by
  unfold loadModel at h
  cases hget : mapGet? cache (resolvePath modelName t) with
  | some existingModel =>
      simp only [hget] at h
      cases h
      exact ⟨rfl, mapGet?_mapSet_self _ _ _⟩
  | none =>
      simp only [hget] at h
      cases hload : llamaLoadModel disk (resolvePath modelName t) with
      | error e => simp [hload] at h
      | ok hdl =>
          simp only [hload] at h
          cases h
          exact ⟨rfl, mapGet?_mapSet_self _ _ _⟩

/-- Witness for C9 at a concrete input: loading a fresh chat model at time
5 yields a record stamped 5 and cached under the resolved path. -/
theorem loadModel_refreshes_lastUsed_witness :
    ∃ ctx cache',
      loadModel (["models/chat/m.gguf"]) ([]) ("m") Category.chat 5 =
        Except.ok (ctx, cache') ∧
      ctx.lastUsed = 5 ∧ mapGet? cache' (resolvePath ("m") Category.chat) = some ctx := by
  refine ⟨{ modelHandle := 18, embeddingContext := none, rankingContext := none,
            lastUsed := 5 },
          [("models/chat/m.gguf",
            { modelHandle := 18, embeddingContext := none, rankingContext := none,
              lastUsed := 5 })], ?_, ?_⟩
  · rfl
  · exact loadModel_refreshes_lastUsed (["models/chat/m.gguf"]) ([]) ("m")
      Category.chat 5
      { modelHandle := 18, embeddingContext := none, rankingContext := none,
        lastUsed := 5 }
      ([("models/chat/m.gguf",
         { modelHandle := 18, embeddingContext := none, rankingContext := none,
           lastUsed := 5 })])
      (by rfl)

/-- Error envelope of the OpenAI-compatible endpoints. -/
structure ApiError where
  message : String
  type : String
  param : Option String
  code : Option String
deriving DecidableEq, Repr

/-- The catch-block error mapping shared by the embeddings, rerank and
chat-completions handlers (lines 164-197, 257-290, 593-626): an `ENOENT`
error becomes HTTP 404 with code `model_not_found` and a message quoting
the attempted path; any other error becomes HTTP 500. -/
def openAiErrorResponse (e : JsError) : Nat × ApiError :=
  match e with
  | JsError.enoent p =>
      (404,
       { message := "Model \x27" ++ p ++ "\x27 not found in models directory"
         type := "invalid_request_error"
         param := some ("model")
         code := some ("model_not_found") })
  | JsError.other msg =>
      (500,
       { message := msg
         type := "server_error"
         param := none
         code := none })

/-- C8: a request for a model whose resolved artifact path is not on disk
(and not cached) makes `loadModel` fail with an error the OpenAI-style
handlers map to HTTP 404, code `model_not_found`, with the attempted
resolved path embedded in the message; every non-ENOENT error maps to
HTTP 500. -/
theorem missing_artifact_yields_404 (disk : List String) (cache : Cache)
    (name : String) (t : Category) (now : Int)
    (hmiss : resolvePath name t ∉ disk)
    (hnc : mapGet? cache (resolvePath name t) = none) :
    (∃ e, loadModel disk cache name t now = Except.error e ∧
      (openAiErrorResponse e).1 = 404 ∧
      (openAiErrorResponse e).2.code = some ("model_not_found") ∧
      ∃ pre post,
        (openAiErrorResponse e).2.message = pre ++ resolvePath name t ++ post)
    ∧ (∀ msg, (openAiErrorResponse (JsError.other msg)).1 = 500) := by
  constructor
  · refine ⟨JsError.enoent (resolvePath name t), ?_, rfl, rfl,
      "Model \x27", "\x27 not found in models directory", rfl⟩
    simp [loadModel, llamaLoadModel, hnc, hmiss]
  · intro msg
    rfl

/-- Witness for C8: requesting embedding model `x` when only `e.gguf`
exists on disk gives 404 / `model_not_found`; a generic error gives 500. -/
theorem missing_artifact_yields_404_witness :
    (resolvePath ("x") Category.embedding ∉ (["models/embedding/e.gguf"]) ∧
     mapGet? ([] : Cache) (resolvePath ("x") Category.embedding) = none) ∧
    ((∃ e, loadModel (["models/embedding/e.gguf"]) ([]) ("x")
          Category.embedding 0 = Except.error e ∧
        (openAiErrorResponse e).1 = 404 ∧
        (openAiErrorResponse e).2.code = some ("model_not_found") ∧
        ∃ pre post, (openAiErrorResponse e).2.message =
          pre ++ resolvePath ("x") Category.embedding ++ post)
     ∧ (∀ msg, (openAiErrorResponse (JsError.other msg)).1 = 500)) :=
  ⟨⟨by decide, rfl⟩,
   missing_artifact_yields_404 (["models/embedding/e.gguf"]) ([]) ("x")
     Category.embedding 0 (by decide) rfl⟩

/-- Counterexample for C3 as stated: a model loaded under the name
`foo.gguf` (cache key `models/chat/foo.gguf`) is present in the cache,
yet `unloadModel` with that same name returns `false` and leaves the
cache unchanged, because the unload handler appends `.gguf`
unconditionally and probes `models/chat/foo.gguf.gguf`. -/
theorem unload_gguf_name_counterexample :
    loadModel (["models/chat/foo.gguf"]) ([]) ("foo.gguf") Category.chat 0 =
      Except.ok
        ({ modelHandle := 20, embeddingContext := none, rankingContext := none,
           lastUsed := 0 },
         [("models/chat/foo.gguf",
           { modelHandle := 20, embeddingContext := none, rankingContext := none,
             lastUsed := 0 })]) ∧
    unloadModel
        ([("models/chat/foo.gguf",
           { modelHandle := 20, embeddingContext := none, rankingContext := none,
             lastUsed := 0 })]) ("foo.gguf") =
      (false,
       [("models/chat/foo.gguf",
         { modelHandle := 20, embeddingContext := none, rankingContext := none,
           lastUsed := 0 })]) :=
  ⟨rfl, rfl⟩

/-- C3 (amended): for a name that does not already end in `.gguf`,
unloading a cached model by the name it was loaded under removes the
entry of the first matching category in the fixed iteration order and
reports `true`; when no category matches, it reports `false` (the
endpoint answers 404) and the cache is unchanged. -/
theorem unload_by_name_amended (cache : Cache) (name : String)
    (hn : strEndsWith name (".gguf") = false) :
    (∀ t₀, categoryOrder.find? (fun t => mapHas cache (resolvePath name t)) =
        some t₀ →
      unloadModel cache name = (true, mapDelete cache (resolvePath name t₀)))
    ∧ (categoryOrder.find? (fun t => mapHas cache (resolvePath name t)) =
        none →
      unloadModel cache name = (false, cache)) := by
  have hres : ∀ t, resolvePath name t =
      pathJoin (MODEL_DIRS t) (name ++ ".gguf") := by
    intro t
    simp [resolvePath, withGgufExt, hn]
  constructor
  · intro t₀ hfind
    unfold unloadModel
    simp only [← hres]
    rw [hfind]
  · intro hfind
    unfold unloadModel
    simp only [← hres]
    rw [hfind]

/-- Witness for C3 (amended): a chat model cached under `models/chat/m.gguf`
is removed by `unloadModel` with name `m`. -/
theorem unload_by_name_amended_witness :
    (strEndsWith ("m") (".gguf") = false) ∧
    unloadModel
        ([("models/chat/m.gguf",
           { modelHandle := 18, embeddingContext := none, rankingContext := none,
             lastUsed := 5 })]) ("m") =
      (true, mapDelete
        ([("models/chat/m.gguf",
           { modelHandle := 18, embeddingContext := none, rankingContext := none,
             lastUsed := 5 })]) (resolvePath ("m") Category.chat)) :=
  ⟨by decide,
   (unload_by_name_amended
     ([("models/chat/m.gguf",
        { modelHandle := 18, embeddingContext := none, rankingContext := none,
          lastUsed := 5 })]) ("m") (by decide)).1 Category.chat (by decide)⟩

/-- JS `Array.prototype.map((x, index) => ...)`: map with the element's
position. -/
def withIndex {α β : Type} (f : Nat → α → β) : Nat → List α → List β
  | _, [] => []
  | i, x :: xs => f i x :: withIndex f (i + 1) xs

theorem withIndex_length {α β : Type} (f : Nat → α → β) :
    ∀ (i : Nat) (l : List α), (withIndex f i l).length = l.length := by
  intro i l
  induction l generalizing i with
  | nil => rfl
  | cons x xs ih => simp [withIndex, ih]

theorem withIndex_getElem? {α β : Type} (f : Nat → α → β) :
    ∀ (l : List α) (i j : Nat),
      (withIndex f i l)[j]? = l[j]?.map (f (i + j)) := by
  intro l
  induction l with
  | nil => intro i j; simp [withIndex]
  | cons x xs ih =>
      intro i j
      cases j with
      | zero => simp [withIndex]
      | succ j =>
          have harith : i + 1 + j = i + (j + 1) := by omega
          simp [withIndex, ih (i + 1) j, harith]

/-- The `input` field of an embeddings request: a single string or an
array of strings. -/
inductive JsonInput where
  | str (s : String)
  | arr (l : List String)
deriving DecidableEq, Repr

/-- Normalisation `Array.isArray(input) ? input : [input]` (line 138). -/
def toInputs : JsonInput → List String
  | JsonInput.str s => [s]
  | JsonInput.arr l => l

/-- One element of the embeddings response `data` array. -/
structure EmbeddingEntry where
  object : String
  embedding : List Int
  index : Nat
deriving DecidableEq, Repr

/-- The embeddings accumulation loop (lines 141-149): for each input text,
push the engine's embedding with `index: embeddings.length`. The engine's
`getEmbeddingFor` is the abstract function `f`. -/
def embedLoop (f : String → List Int) (inputs : List String) :
    List (List Int × Nat) :=
  inputs.foldl (fun acc text => acc ++ [(f text, acc.length)]) []

/-- The embeddings response `data` array (lines 151-157). -/
def embeddingsData (f : String → List Int) (input : JsonInput) :
    List EmbeddingEntry :=
  (embedLoop f (toInputs input)).map
    (fun p => { object := "embedding", embedding := p.1, index := p.2 })

theorem embedLoop_go (f : String → List Int) :
    ∀ (inputs : List String) (acc : List (List Int × Nat)),
      inputs.foldl (fun a text => a ++ [(f text, a.length)]) acc =
        acc ++ withIndex (fun i text => (f text, i)) acc.length inputs := by
  intro inputs
  induction inputs with
  | nil => intro acc; simp [withIndex]
  | cons x xs ih =>
      intro acc
      rw [List.foldl_cons, ih (acc ++ [(f x, acc.length)])]
      simp [withIndex]

/-- C6: for every embeddings request (single string treated as a
one-element list), the response data has exactly one entry per input, in
input order, with `index` equal to the position and holding the embedding
of the input at that position. -/
theorem embeddings_index_matches_input (f : String → List Int)
    (input : JsonInput) :
    (embeddingsData f input).length = (toInputs input).length ∧
    ∀ (i : Nat) (x : String), (toInputs input)[i]? = some x →
      (embeddingsData f input)[i]? =
        some { object := "embedding", embedding := f x, index := i } := by
  have h : embedLoop f (toInputs input) =
      withIndex (fun i text => (f text, i)) 0 (toInputs input) := by
    simpa using embedLoop_go f (toInputs input) []
  constructor
  · simp [embeddingsData, h, withIndex_length]
  · intro i x hx
    simp [embeddingsData, h, withIndex_getElem?, hx]

/-- Witness for C6: inputs `["a", "bb"]` give entry 1 with index 1 and the
embedding of `"bb"`. -/
theorem embeddings_index_matches_input_witness :
    ((toInputs (JsonInput.arr (["a", "bb"])))[1]? = some ("bb")) ∧
    (embeddingsData (fun s => [(s.data.length : Int)])
        (JsonInput.arr (["a", "bb"])))[1]? =
      some { object := "embedding", embedding := [2], index := 1 } :=
  ⟨rfl,
   (embeddings_index_matches_input (fun s => [(s.data.length : Int)])
     (JsonInput.arr (["a", "bb"]))).2 1 ("bb") rfl⟩

/-- One scored document, as returned by the engine's ranking context. -/
structure RankedResult where
  document : String
  score : Int
deriving DecidableEq, Repr

/-- Descending-score order on ranked results. -/
def rankRel (a b : RankedResult) : Prop := b.score ≤ a.score

instance : DecidableRel rankRel := fun a b => Int.decLe b.score a.score

instance : IsTotal RankedResult rankRel := ⟨fun a b => le_total b.score a.score⟩

instance : IsTrans RankedResult rankRel :=
  ⟨fun _ _ _ hab hbc => le_trans hbc hab⟩

/-- Engine interface `rankingContext.rankAndSort(query, documents)`
(external collaborator): scores every document against the query and
returns the results sorted by descending score. -/
def rankAndSort (score : String → String → Int) (query : String)
    (documents : List String) : List RankedResult :=
  List.insertionSort rankRel
    (documents.map (fun d => { document := d, score := score query d }))

/-- One element of the rerank response `data` array. -/
structure RerankEntry where
  object : String
  document : String
  relevance_score : Int
  index : Nat
deriving DecidableEq, Repr

/-- The rerank response `data` array (lines 246-251):
`rankedResults.map((result, index) => ...)`. -/
def rerankData (score : String → String → Int) (query : String)
    (documents : List String) : List RerankEntry :=
  withIndex
    (fun i r => { object := "rerank_result", document := r.document,
                  relevance_score := r.score, index := i }) 0
    (rankAndSort score query documents)

/-- C7: every rerank response is sorted by descending `relevance_score`,
and each entry's `index` equals its position in that sorted (rank) order,
not the position of the document in the request. -/
theorem rerank_sorted_rank_index (score : String → String → Int)
    (query : String) (documents : List String) :
    (∀ (i : Nat) (x : RerankEntry),
      (rerankData score query documents)[i]? = some x → x.index = i) ∧
    (∀ (i j : Nat) (a b : RerankEntry), i ≤ j →
      (rerankData score query documents)[i]? = some a →
      (rerankData score query documents)[j]? = some b →
      b.relevance_score ≤ a.relevance_score) := by
  have hs : List.Sorted rankRel (rankAndSort score query documents) :=
    List.sorted_insertionSort rankRel _
  constructor
  · intro i x hx
    rw [rerankData, withIndex_getElem?] at hx
    rcases Option.map_eq_some'.mp hx with ⟨r, _, hr⟩
    rw [← hr]
    simp
  · intro i j a b hij ha hb
    rw [rerankData, withIndex_getElem?] at ha hb
    rcases Option.map_eq_some'.mp ha with ⟨ra, hra, hga⟩
    rcases Option.map_eq_some'.mp hb with ⟨rb, hrb, hgb⟩
    rcases List.getElem?_eq_some_iff.mp hra with ⟨hia, hea⟩
    rcases List.getElem?_eq_some_iff.mp hrb with ⟨hib, heb⟩
    have hscore : rb.score ≤ ra.score := by
      rcases Nat.lt_or_ge i j with hlt | hge
      · have hp := (List.pairwise_iff_getElem.mp hs) i j hia hib hlt
        rw [hea, heb] at hp
        exact hp
      · have : i = j := Nat.le_antisymm hij hge
        subst this
        rw [hra] at hrb
        cases hrb
        exact le_refl _
    rw [← hga, ← hgb]
    simpa using hscore

/-- Witness for C7: documents `["a", "ccc", "bb"]` scored by length come
back as ccc (3), bb (2), a (1) with rank indices 0, 1, 2; entry 1 carries
index 1 and scores descend from entry 0 to entry 1. -/
theorem rerank_sorted_rank_index_witness :
    ((rerankData (fun _ d => (d.data.length : Int)) ("q")
        (["a", "ccc", "bb"]))[0]? =
      some { object := "rerank_result", document := "ccc",
             relevance_score := 3, index := 0 }) ∧
    ((rerankData (fun _ d => (d.data.length : Int)) ("q")
        (["a", "ccc", "bb"]))[1]? =
      some { object := "rerank_result", document := "bb",
             relevance_score := 2, index := 1 }) ∧
    ({ object := "rerank_result", document := "bb",
       relevance_score := 2, index := 1 } : RerankEntry).index = 1 ∧
    (({ object := "rerank_result", document := "bb",
        relevance_score := 2, index := 1 } : RerankEntry).relevance_score ≤
      ({ object := "rerank_result", document := "ccc",
         relevance_score := 3, index := 0 } : RerankEntry).relevance_score) :=
  ⟨by decide, by decide,
   (rerank_sorted_rank_index (fun _ d => (d.data.length : Int)) ("q")
     (["a", "ccc", "bb"])).1 1
     { object := "rerank_result", document := "bb",
       relevance_score := 2, index := 1 } (by decide),
   (rerank_sorted_rank_index (fun _ d => (d.data.length : Int)) ("q")
     (["a", "ccc", "bb"])).2 0 1
     { object := "rerank_result", document := "ccc",
       relevance_score := 3, index := 0 }
     { object := "rerank_result", document := "bb",
       relevance_score := 2, index := 1 }
     (by decide) (by decide) (by decide)⟩

/-- Flush test of the streaming buffer (line 498): the buffer holds a
space or a newline. JS strings are embedded as character lists here so
that concatenation reasoning is structural. -/
def flushCondition (b : List Char) : Bool :=
  b.contains (' ') || b.contains ('\n')

/-- One `onTextChunk` callback invocation (lines 496-519): append the
token to the buffer; if the buffer holds a whitespace boundary, emit it
as a chunk and clear it. State is (buffer, chunks emitted so far). -/
def streamStep (acc : List Char × List (List Char)) (tok : List Char) :
    List Char × List (List Char) :=
  if flushCondition (acc.1 ++ tok) then ([], acc.2 ++ [acc.1 ++ tok])
  else (acc.1 ++ tok, acc.2)

/-- The whole token stream driven through the callback, starting from an
empty buffer and no emitted chunks. -/
def streamFold (tokens : List (List Char)) : List Char × List (List Char) :=
  tokens.foldl streamStep ([], [])

/-- The `delta.content` chunks emitted by the streaming branch: the
callback-emitted chunks plus the final flush of a non-empty remaining
buffer (lines 523-543). -/
def streamChunks (tokens : List (List Char)) : List (List Char) :=
  if (streamFold tokens).1.isEmpty then (streamFold tokens).2
  else (streamFold tokens).2 ++ [(streamFold tokens).1]

/-- One SSE frame: a chat.completion.chunk carrying `delta.content`, or
the terminal `[DONE]` frame. -/
inductive SseFrame where
  | chunk (content : List Char)
  | done
deriving DecidableEq, Repr

/-- The frame sequence written to the response stream: the content chunks
followed by `data: [DONE]` (line 546). -/
def streamFrames (tokens : List (List Char)) : List SseFrame :=
  (streamChunks tokens).map SseFrame.chunk ++ [SseFrame.done]

/-- The `delta.content` fields of a frame list, excluding `[DONE]`. -/
def deltaContents : List SseFrame → List (List Char)
  | [] => []
  | SseFrame.chunk c :: fs => c :: deltaContents fs
  | SseFrame.done :: fs => deltaContents fs

/-- The non-streaming branch's `message.content` (lines 563-569): with
deterministic decoding the engine's `prompt` return value is the
concatenation of the tokens it reports through `onTextChunk` (inference
engine interface; the engine is an external collaborator). -/
def nonStreamingContent (tokens : List (List Char)) : List Char :=
  tokens.flatten

theorem streamFold_go :
    ∀ (tokens : List (List Char)) (buf : List Char) (out : List (List Char)),
      ((tokens.foldl streamStep (buf, out)).2).flatten ++
          (tokens.foldl streamStep (buf, out)).1 =
        out.flatten ++ buf ++ tokens.flatten := by
  intro tokens
  induction tokens with
  | nil => intro buf out; simp
  | cons tok rest ih =>
      intro buf out
      rw [List.foldl_cons]
      have hstep : streamStep (buf, out) tok =
          if flushCondition (buf ++ tok) then ([], out ++ [buf ++ tok])
          else (buf ++ tok, out) := rfl
      rw [hstep]
      by_cases h : flushCondition (buf ++ tok) = true
      · rw [if_pos h, ih]
        simp [List.append_assoc]
      · rw [if_neg h, ih]
        simp [List.append_assoc]

theorem deltaContents_of_frames (l : List (List Char)) :
    deltaContents (l.map SseFrame.chunk ++ [SseFrame.done]) = l := by
  induction l with
  | nil => rfl
  | cons c cs ih => simp [deltaContents, ih]

/-- C5: for one identical deterministic token stream, the concatenation of
all `delta.content` fields across the streamed frames (excluding the
terminal `[DONE]`) equals the non-streaming `message.content`: the
whitespace-boundary buffering plus the final flush loses no text and adds
none. -/
theorem streaming_content_matches_nonStreaming (tokens : List (List Char)) :
    (deltaContents (streamFrames tokens)).flatten = nonStreamingContent tokens := by
  rw [streamFrames, deltaContents_of_frames]
  have h : (streamFold tokens).2.flatten ++ (streamFold tokens).1 = tokens.flatten := by
    have hg := streamFold_go tokens [] []
    simpa [streamFold] using hg
  by_cases hb : (streamFold tokens).1.isEmpty
  · rw [streamChunks, if_pos hb]
    have hnil : (streamFold tokens).1 = [] := by simpa using hb
    rw [hnil, List.append_nil] at h
    simpa [nonStreamingContent] using h
  · rw [streamChunks, if_neg hb]
    simpa [nonStreamingContent, List.append_assoc] using h

/-- One element of the chat request's `messages` array. -/
structure ChatMessage where
  role : String
  content : String
deriving DecidableEq, Repr

/-- System-prompt extraction (lines 459-464): scan all messages, keeping
the content of each `system` message (the last one wins, starting from
the empty string). -/
def extractSystemPrompt (messages : List ChatMessage) : String :=
  messages.foldl
    (fun acc msg => if msg.role = "system" then msg.content else acc) ""

/-- The text passed to `session.prompt` in both branches (lines 491 and
563): `messages[messages.length - 1].content`. -/
def lastMessageContent (messages : List ChatMessage) : String :=
  match messages.getLast? with
  | some m => m.content
  | none => ""

/-- The pair (system prompt, engine prompt text) the handler derives from
the request's messages. -/
def enginePromptOf (messages : List ChatMessage) : String × String :=
  (extractSystemPrompt messages, lastMessageContent messages)

theorem extractSystemPrompt_go (messages : List ChatMessage) :
    ∀ acc : String,
      messages.foldl
          (fun acc msg => if msg.role = "system" then msg.content else acc)
          acc =
        (messages.filter (fun m => decide (m.role = "system"))).foldl
          (fun acc msg => if msg.role = "system" then msg.content else acc)
          acc := by
  induction messages with
  | nil => intro acc; rfl
  | cons m ms ih =>
      intro acc
      by_cases h : m.role = "system"
      · simp [List.foldl_cons, List.filter_cons, h, ih]
      · simp [List.foldl_cons, List.filter_cons, h, ih]

/-- C10: the handler prompts the engine with exactly the content of the
last message, and only `system` messages additionally contribute (as the
session's system prompt, last one winning): two requests that agree on
the last message and on the system-role messages produce the same system
prompt and the same engine prompt. -/
theorem chat_prompt_from_last_and_system (m1 m2 : List ChatMessage)
    (hlast : m1.getLast? = m2.getLast?)
    (hsys : m1.filter (fun m => decide (m.role = "system")) =
            m2.filter (fun m => decide (m.role = "system"))) :
    enginePromptOf m1 = enginePromptOf m2 ∧
    enginePromptOf m1 = (extractSystemPrompt m1, lastMessageContent m1) := by
  refine ⟨?_, rfl⟩
  unfold enginePromptOf
  have h1 : extractSystemPrompt m1 = extractSystemPrompt m2 := by
    unfold extractSystemPrompt
    rw [extractSystemPrompt_go m1, extractSystemPrompt_go m2, hsys]
  have h2 : lastMessageContent m1 = lastMessageContent m2 := by
    unfold lastMessageContent
    rw [hlast]
  rw [h1, h2]

/-- Witness for C10: two requests differing only in an intermediate user
message yield the same system prompt and the same engine prompt. -/
theorem chat_prompt_from_last_and_system_witness :
    (([{ role := "system", content := "S" }, { role := "user", content := "A" },
       { role := "user", content := "B" }] : List ChatMessage).getLast? =
     ([{ role := "system", content := "S" }, { role := "user", content := "C" },
       { role := "user", content := "B" }] : List ChatMessage).getLast?) ∧
    enginePromptOf
        ([{ role := "system", content := "S" },
          { role := "user", content := "A" },
          { role := "user", content := "B" }]) =
      enginePromptOf
        ([{ role := "system", content := "S" },
          { role := "user", content := "C" },
          { role := "user", content := "B" }]) :=
  ⟨by decide,
   (chat_prompt_from_last_and_system
     ([{ role := "system", content := "S" },
       { role := "user", content := "A" },
       { role := "user", content := "B" }])
     ([{ role := "system", content := "S" },
       { role := "user", content := "C" },
       { role := "user", content := "B" }])
     (by decide) (by decide)).1⟩

/-- State of two concurrent `loadModel` calls for the same not-yet-cached
resolved path. `cached` abstracts `loadedModels.has(modelPath)`;
`engineLoads` counts loads initiated against the engine; each program
counter is 0 at the synchronous cache check (lines 53-57), 1 while
awaiting `llama.loadModel` (line 59), and 2 after `loadedModels.set`
returned the record (lines 76-77). -/
structure RaceState where
  cached : Bool
  engineLoads : Nat
  pc1 : Nat
  pc2 : Nat
deriving DecidableEq, Repr

/-- One atomic segment of a `loadModel` task: at the check, a cache hit
returns at once, a miss initiates an engine load and suspends; after the
await, the task stores the entry and returns. -/
def taskAdvance (cached : Bool) (loads pc : Nat) : Bool × Nat × Nat :=
  if pc = 0 then
    if cached then (cached, loads, 2) else (cached, loads + 1, 1)
  else if pc = 1 then (true, loads, 2)
  else (cached, loads, pc)

/-- Interleaving step: run one atomic segment of task 1 (`true`) or
task 2 (`false`). -/
def raceStep (s : RaceState) (who : Bool) : RaceState :=
  if who then
    { cached := (taskAdvance s.cached s.engineLoads s.pc1).1
      engineLoads := (taskAdvance s.cached s.engineLoads s.pc1).2.1
      pc1 := (taskAdvance s.cached s.engineLoads s.pc1).2.2
      pc2 := s.pc2 }
  else
    { cached := (taskAdvance s.cached s.engineLoads s.pc2).1
      engineLoads := (taskAdvance s.cached s.engineLoads s.pc2).2.1
      pc1 := s.pc1
      pc2 := (taskAdvance s.cached s.engineLoads s.pc2).2.2 }

/-- Run an explicit schedule of task segments. -/
def runSchedule (s : RaceState) : List Bool → RaceState
  | [] => s
  | w :: ws => runSchedule (raceStep s w) ws

/-- Both tasks start at the cache check with the identity uncached. -/
def initRace : RaceState :=
  { cached := false, engineLoads := 0, pc1 := 0, pc2 := 0 }

/-- C1 evaluated at the failing input: under the interleaving in which
both tasks pass the cache check before either finishes its load (schedule
T1-check, T2-check, T1-finish, T2-finish), both callers complete but two
independent engine loads are performed, because `loadModel` inserts no
Loading placeholder between its cache check and its `loadedModels.set`.
A fully serial schedule performs a single load. -/
theorem load_coalescing_violated :
    ((runSchedule initRace ([true, false, true, false])).pc1 = 2 ∧
     (runSchedule initRace ([true, false, true, false])).pc2 = 2 ∧
     (runSchedule initRace ([true, false, true, false])).engineLoads = 2) ∧
    ((runSchedule initRace ([true, true, false])).pc1 = 2 ∧
     (runSchedule initRace ([true, true, false])).pc2 = 2 ∧
     (runSchedule initRace ([true, true, false])).engineLoads = 1) := by
  decide

/-- The `chatSessions` map visible to a chat request's lookup: it is
constructed inside the handler (line 453), so every request starts from
an empty map. -/
def chatSessionsAtRequestStart : List (String × Nat) := []

/-- The session lookup of the chat handler (lines 456-482): derive the
session id from the model name and the current time, look it up in the
handler-local map; report whether an existing session was reused, and the
map after the request (a fresh generation context is created and stored
on a miss). -/
def handleChatRequestSession (model : String) (now : Int) :
    Bool × List (String × Nat) :=
  match mapGet? chatSessionsAtRequestStart (model ++ "-" ++ toString now) with
  | some _ => (true, chatSessionsAtRequestStart)
  | none =>
      (false, mapSet chatSessionsAtRequestStart (model ++ "-" ++ toString now) 0)

/-- C2 evaluated at the failing input: no chat request ever reuses an
existing session — in particular the second of two requests with the same
session key builds a fresh generation context — because the session map
is recreated per request (and the session id embeds the request time). -/
theorem chat_session_never_reused (model : String) (now : Int) :
    (handleChatRequestSession model now).1 = false := by
  rfl

end LocalLLM
